import Mathlib

/-!
Shallow embedding of the macrotis DNS reconciler core (tinydns parser,
resource model, keyed index, three-way comparator, Route53 driver loop)
together with theorems settling the specification claims.

Strings are modelled by Lean `String`; where the Rust code measures byte
lengths (`str::len`) we use an explicit UTF-8 byte-size function, and
where it searches for substrings (`str::contains`) we use list infixes on
the character data (for valid UTF-8, byte-level substring occurrence
coincides with character-level occurrence).  Machine integers (`i32`,
`i64`, `u64`) are modelled as `Int`/`Nat` with explicit range checks in
the numeric parsers.  Fallible functions return `Option`.
-/

/-- Number of bytes of the UTF-8 encoding of a character (the arithmetic of
`String.utf8ByteSize`). -/
def csize (c : Char) : Nat :=
  if c.toNat < 0x80 then 1
  else if c.toNat < 0x800 then 2
  else if c.toNat < 0x10000 then 3
  else 4

/-- Byte length of a string, modelling Rust `str::len` (UTF-8 byte count). -/
def rlen (s : String) : Nat :=
  s.data.foldl (fun n c => n + csize c) 0

/-- ASCII lowercasing of a single character, modelling the per-byte behaviour
of Rust `str::to_ascii_lowercase`. -/
def asciiLower (c : Char) : Char :=
  if 'A' ≤ c ∧ c ≤ 'Z' then Char.ofNat (c.toNat + 32) else c

/-- Substring occurrence: `pat` occurs contiguously inside `hay`, modelling
Rust `str::contains` with a string pattern. -/
def containsSub (hay pat : String) : Prop :=
  pat.data <:+: hay.data

instance (hay pat : String) : Decidable (containsSub hay pat) :=
  List.decidableInfix pat.data hay.data

/-- Accumulator-based splitter used by `splitCh`. -/
def splitChAux (sep : Char) : List Char → List Char → List (List Char)
  | [], acc => [acc.reverse]
  | c :: cs, acc =>
    if c = sep then acc.reverse :: splitChAux sep cs []
    else splitChAux sep cs (c :: acc)

/-- Split a character list on a separator, modelling Rust `str::split(sep)`:
empty fields are preserved and the empty string yields one empty field. -/
def splitCh (sep : Char) (l : List Char) : List (List Char) :=
  splitChAux sep l []

/-- Value of a (non-empty, all-digit) list of decimal digits. -/
def digitsToNat (l : List Char) : Nat :=
  l.foldl (fun n c => n * 10 + (c.toNat - '0'.toNat)) 0

/-- Parse an unsigned sequence of decimal digits; `none` when empty or when a
non-digit appears. -/
def parseNatDigits (l : List Char) : Option Nat :=
  if l ≠ [] ∧ l.all Char.isDigit then some (digitsToNat l) else none

/-- Parse a Rust `i32` (optional sign, decimal digits, range check), modelling
`str::parse::<i32>()`. -/
def parseI32 : List Char → Option Int
  | '+' :: rest =>
    (parseNatDigits rest).bind fun n =>
      if n ≤ 2147483647 then some (n : Int) else none
  | '-' :: rest =>
    (parseNatDigits rest).bind fun n =>
      if n ≤ 2147483648 then some (-(n : Int)) else none
  | l =>
    (parseNatDigits l).bind fun n =>
      if n ≤ 2147483647 then some (n : Int) else none

/-- Parse a Rust `u64` (optional plus sign, decimal digits, range check),
modelling `str::parse::<u64>()`. -/
def parseU64 : List Char → Option Nat
  | '+' :: rest =>
    (parseNatDigits rest).bind fun n =>
      if n ≤ 18446744073709551615 then some n else none
  | l =>
    (parseNatDigits l).bind fun n =>
      if n ≤ 18446744073709551615 then some n else none

/-- Validity of one dotted-quad octet under Rust `Ipv4Addr::from_str`:
non-empty, all digits, no leading zero (except the octet `0`), value at
most 255. -/
def isOctet (l : List Char) : Bool :=
  match l with
  | [] => false
  | c :: cs =>
    (c :: cs).all Char.isDigit && (c ≠ '0' || cs = []) && digitsToNat (c :: cs) ≤ 255

/-- Validity of a dotted-quad IPv4 address, modelling
`str::parse::<Ipv4Addr>()`: exactly four valid octets separated by dots. -/
def isIpv4 (l : List Char) : Bool :=
  match splitCh '.' l with
  | [a, b, c, d] => isOctet a && isOctet b && isOctet c && isOctet d
  | _ => false

/-- Lexicographic order on character lists, modelling Rust's `Ord` for
`String` (byte-wise comparison; for valid UTF-8 the byte order and the
code-point order agree). -/
def listCharLeB : List Char → List Char → Bool
  | [], _ => true
  | _ :: _, [] => false
  | a :: as, b :: bs =>
    if a < b then true
    else if b < a then false
    else listCharLeB as bs

/-- Lexicographic order on strings used wherever the Rust code sorts or
compares strings. -/
def strLe (a b : String) : Prop :=
  listCharLeB a.data b.data = true

instance (a b : String) : Decidable (strLe a b) :=
  inferInstanceAs (Decidable (listCharLeB a.data b.data = true))

/-- The parser's output record (`TinyDNSRecord` in `tinydns/mod.rs`).  The
`ttl` field is the Rust `i32` modelled as `Int`. -/
structure TinyDNSRecord where
  rtype : String
  fqdn : String
  target : String
  ttl : Int
  deriving DecidableEq, Repr

/-- Equality of `TinyDNSRecord`s as implemented by `PartialEq` in
`tinydns/mod.rs`: TTL is ignored. -/
def tdrEqB (a b : TinyDNSRecord) : Bool :=
  a.rtype == b.rtype && a.fqdn == b.fqdn && a.target == b.target

/-- Ordering of `TinyDNSRecord`s as implemented by `Ord` in
`tinydns/mod.rs`: lexicographic comparison of the `fqdn` fields only. -/
def tdrLe (a b : TinyDNSRecord) : Prop :=
  strLe a.fqdn b.fqdn

instance : DecidableRel tdrLe := fun a b =>
  inferInstanceAs (Decidable (strLe a.fqdn b.fqdn))

/-- A canonicalized record bound to a provider zone (`Resource` in
`resource.rs`).  The `ttl` field is the Rust `i64` modelled as `Int`. -/
structure Resource where
  zone_id : String
  name : String
  rtype : String
  records : List String
  ttl : Int
  deriving DecidableEq, Repr

/-- Sorting a list of rdata strings, modelling `Vec::<String>::sort()` (a
stable sort under the total lexicographic order on strings; the result is
the unique sorted permutation). -/
def sortStrings (l : List String) : List String :=
  List.insertionSort strLe l

/-- Equality of `Resource`s as implemented by `PartialEq` in `resource.rs`:
all scalar fields must agree and the `records` vectors are compared after
sorting clones of both. -/
def resourceEqB (a b : Resource) : Bool :=
  a.zone_id == b.zone_id &&
  a.name == b.name &&
  a.rtype == b.rtype &&
  sortStrings a.records == sortStrings b.records &&
  a.ttl == b.ttl

/-- Result of a successful `Resource::merge(&mut self, other)` call in
`resource.rs`: `self.records` becomes `other.records ++ self.records`
(the incoming record keeps its own scalar fields).  The guard
`self.rtype != other.rtype` (merge returns `false`) is handled at the
call sites. -/
def mergeRes (self other : Resource) : Resource :=
  { self with records := other.records ++ self.records }

/-- The keyed index `ResHash` of `resource.rs`, a `HashMap<String, Resource>`
modelled as an association list queried through `rlookup`. -/
abbrev RMap : Type := List (String × Resource)

/-- First-match lookup in the association-list model of a `HashMap`. -/
def rlookup (k : String) : RMap → Option Resource
  | [] => none
  | (k2, v) :: rest => if k2 = k then some v else rlookup k rest

/-- Removal of a key, modelling `HashMap::remove`. -/
def eraseKey (k : String) : RMap → RMap
  | [] => []
  | p :: rest => if p.1 = k then eraseKey k rest else p :: eraseKey k rest

/-- Insertion (with replacement) of a binding, modelling `HashMap::insert`. -/
def insertKV (k : String) (v : Resource) (m : RMap) : RMap :=
  (k, v) :: eraseKey k m

/-- Derived hashmap key of a `Resource` as computed in `build_reshash`
(`resource.rs` lines 71-73): `"{rtype}-{name}"`, trailing dots trimmed,
remaining dots replaced by dashes, ASCII-lowercased. -/
def resKey (r : Resource) : String :=
  let s := (r.rtype ++ "-" ++ r.name).data
  let s := (s.reverse.dropWhile (· = '.')).reverse
  let s := s.map (fun c => if c = '.' then '-' else c)
  String.mk (s.map asciiLower)

/-- Zone metadata from the configuration (`R53Zone` in `lib.rs`). -/
structure R53Zone where
  name : String
  domain : String
  id : String

/-- One step of the best-match loop of `TinyDNSRecord::find_zone_id`
(`tinydns/mod.rs` lines 51-61): a zone replaces the accumulator exactly
when its domain occurs inside the fqdn and is strictly longer (in bytes)
than the accumulated domain. -/
def fzStep (fqdn : String) (acc : String × Option String) (z : R53Zone) :
    String × Option String :=
  if containsSub fqdn z.domain ∧ rlen z.domain > rlen acc.1 then
    (z.domain, some z.id)
  else acc

/-- The accumulator fold of `find_zone_id` over the zone table. -/
def fzFold (fqdn : String) (zones : List R53Zone) (acc : String × Option String) :
    String × Option String :=
  zones.foldl (fzStep fqdn) acc

/-- Zone matching (`TinyDNSRecord::find_zone_id` in `tinydns/mod.rs`):
the accumulator starts at the sentinel `("X", None)` and the second
component is returned. -/
def find_zone_id (rec : TinyDNSRecord) (zones : List R53Zone) : Option String :=
  (fzFold rec.fqdn zones ("X", none)).2

/-- Conversion of one zone-matched `TinyDNSRecord` into a `Resource`
(`vec_from_tiny` in `resource.rs`, lines 124-130): single-valued rdata,
TTL promoted to 64-bit. -/
def toResource (rec : TinyDNSRecord) (zid : String) : Resource :=
  { zone_id := zid
    name := rec.fqdn
    rtype := rec.rtype
    records := [rec.target]
    ttl := rec.ttl }

/-- The conversion loop of `vec_from_tiny` (`resource.rs` lines 113-132):
records whose zone cannot be found are skipped with the error flag set
(`error_flag = true; continue`), the rest are converted in order.  Returns
the converted list together with the error flag. -/
def vftLoop (zones : List R53Zone) : List TinyDNSRecord → List Resource × Bool
  | [] => ([], false)
  | r :: rs =>
    let rest := vftLoop zones rs
    match find_zone_id r zones with
    | none => (rest.1, true)
    | some zid => (toResource r zid :: rest.1, rest.2)

/-- Canonicalization (`vec_from_tiny` in `resource.rs`): `None` whenever the
error flag was set by any record without a zone match, otherwise the
converted list.  (The source calls the zone finder as
`tinydns::find_zone_id(&rec, &zones)`; the function it denotes is the
`find_zone_id` of `tinydns/mod.rs` embedded above.) -/
def vec_from_tiny (records : List TinyDNSRecord) (zones : List R53Zone) :
    Option (List Resource) :=
  let r := vftLoop zones records
  if r.2 then none else some r.1

/-- The collision test of the `build_reshash` loop (`resource.rs` lines
77-91): with an existing entry under the key, the error flag is set when
the incoming record is a PTR, or otherwise when `Resource::merge` fails
because the record types differ. -/
def brErrCond (m : RMap) (rec : Resource) : Bool :=
  match rlookup (resKey rec) m with
  | none => false
  | some old => rec.rtype == "PTR" || rec.rtype != old.rtype

/-- Evolution of the hashmap in one `build_reshash` iteration (`resource.rs`
lines 68-95): the existing entry (if any) is removed; on a PTR collision or
a failed merge the incoming record is stored as is, on a successful merge
the merged record is stored, and without a collision the record is simply
inserted. -/
def brMapStep (m : RMap) (rec : Resource) : RMap :=
  match rlookup (resKey rec) m with
  | none => insertKV (resKey rec) rec m
  | some old =>
    if rec.rtype = "PTR" then insertKV (resKey rec) rec m
    else if rec.rtype = old.rtype then insertKV (resKey rec) (mergeRes rec old) m
    else insertKV (resKey rec) rec m

/-- The full loop of `build_reshash`: hashmap and error flag threaded
together. -/
def brLoop (acc : RMap × Bool) (records : List Resource) : RMap × Bool :=
  records.foldl (fun acc rec => (brMapStep acc.1 rec, acc.2 || brErrCond acc.1 rec)) acc

/-- Index construction (`build_reshash` in `resource.rs`): `None` when the
error flag was raised by any collision, otherwise the built map. -/
def build_reshash (records : List Resource) : Option RMap :=
  let r := brLoop ([], false) records
  if r.2 then none else some r.1

/-- Map component of `brLoop` in isolation (the map evolution does not depend
on the error flag). -/
def buildMap (m : RMap) (records : List Resource) : RMap :=
  records.foldl brMapStep m

/-- Flag component of `brLoop` in isolation: whether some iteration raises
the error condition against the map built so far. -/
def brErrExists (m : RMap) : List Resource → Bool
  | [] => false
  | r :: rs => brErrCond m r || brErrExists (brMapStep m r) rs

/-- Reconciliation of state against remote (`state_remote` in `compare.rs`):
one pass over the state entries collects the keys to delete (absent from
remote) and to update (present in remote with a differing record); the
deletions are applied first, then each update key is rebound to the remote
record. -/
def state_remote (st re : RMap) : RMap :=
  let del := (st.filter (fun p => (rlookup p.1 re).isNone)).map Prod.fst
  let upd := (st.filter (fun p =>
    match rlookup p.1 re with
    | some remote => !resourceEqB p.2 remote
    | none => false)).map Prod.fst
  let st1 := del.foldl (fun m k => eraseKey k m) st
  upd.foldl (fun m k =>
    match rlookup k re with
    | some x => insertKV k x m
    | none => m) st1

/-- The first loop of `local_state` (`compare.rs` lines 39-44), building the
`new` and `updated` maps in one pass over the local entries.  The source
text of this loop does not compile: the braces of the `match` are
unbalanced and the variable `x` is referenced in the `None` arm where it is
not bound.  This embedding reads the `Some` arm exactly as written —
`u.insert(key.clone(), x.clone())`, binding the STATE record `x` — and
reads the `None` arm with the only type-correct referent in scope,
`rec` (the local record), in place of the unbound `x`. -/
def lsLoop (st : RMap) : List (String × Resource) → RMap × RMap
  | [] => ([], [])
  | p :: rest =>
    let nu := lsLoop st rest
    match rlookup p.1 st with
    | some x =>
      if !resourceEqB x p.2 then (nu.1, insertKV p.1 x nu.2) else nu
    | none => (insertKV p.1 p.2 nu.1, nu.2)

/-- Three-way partition of local against state (`local_state` in
`compare.rs`): `new` and `updated` from the loop over local, `deleted`
collects the state entries whose key is absent from local. -/
def local_state (lo st : RMap) : RMap × RMap × RMap :=
  let nu := lsLoop st lo
  let d := (st.filter (fun p => (rlookup p.1 lo).isNone)).foldr
    (fun p acc => insertKV p.1 p.2 acc) []
  (nu.1, nu.2, d)

/-- One turn of the `bulk_put` batching loop (`r53.rs` lines 108-129),
modelled generically in the element type of the change list.  Rust
`Vec::split_off(at)` leaves elements `[0, at)` in place and returns
`[at, len)`; with `at = min(len, 99)` the submitted `chunk` is the tail
`records.drop (min len 99)` and the list retained for the next turn is
`records.take (min len 99)`.  The loop exits only when the retained list
is empty; the fuel argument bounds the number of turns so that the
(non-terminating) loop can be embedded as a total function, and the result
is the sequence of submitted batches in submission order (`none` when the
fuel is exhausted before the loop exits). -/
def bulkPutBatches {α : Type} : Nat → List α → Option (List (List α))
  | 0, _ => none
  | fuel + 1, records =>
    let c := records.length
    let chunk := records.drop (min c 99)
    let rest := records.take (min c 99)
    if rest.isEmpty then some [chunk]
    else
      match bulkPutBatches fuel rest with
      | some bs => some (chunk :: bs)
      | none => none

/-- The batch submitted by the first turn of the `bulk_put` loop. -/
def bulkPutChunk {α : Type} (records : List α) : List α :=
  records.drop (min records.length 99)

/-- TTL extraction shared by the simple parsers: default 300 when the field
is absent, `unwrap_or(300)` when it does not parse as an `i32`. -/
def ttlOf : List (List Char) → Int
  | [] => 300
  | t :: _ => (parseI32 t).getD 300

/-- The basic record parser (`parse` in `tinydns/parser.rs`, lines 101-154)
for the `+` (A), `^` (PTR) and `C` (CNAME) prefixes: at least two
colon-separated fields, double quotes stripped from the target, and for A
records the target must parse as an IPv4 address. -/
def parse (rtype : String) (data : String) : List TinyDNSRecord :=
  match splitCh ':' data.data with
  | f :: r :: rest =>
    let target := String.mk (r.filter (· ≠ '"'))
    if rtype = "A" ∧ ¬ isIpv4 r then []
    else
      [{ rtype := rtype, fqdn := String.mk f, target := target, ttl := ttlOf rest }]
  | _ => []

/-- The quote-rejoining loop of `parse_txt` (`tinydns/parser.rs` lines
184-193): fragments are pulled and rejoined with `:` until the
accumulated chunk ends with a double quote; `none` when the fragments run
out first. -/
def txtJoin (rec : List Char) (parts : List (List Char)) :
    Option (List Char × List (List Char)) :=
  if rec.getLast? = some '"' then some (rec, parts)
  else
    match parts with
    | [] => none
    | p :: ps => txtJoin (rec ++ ':' :: p) ps
termination_by parts.length

/-- Removal of all leading and trailing double quotes, modelling
`str::trim_matches('"')`. -/
def trimQuotes (l : List Char) : List Char :=
  ((l.dropWhile (· = '"')).reverse.dropWhile (· = '"')).reverse

/-- The TXT parser (`parse_txt` in `tinydns/parser.rs`, lines 159-220):
the rdata must start and end with a double quote, intermediate colons are
preserved by rejoining fragments, and the stored target is the quoted
content with the quotes trimmed. -/
def parse_txt (data : String) : List TinyDNSRecord :=
  match splitCh ':' data.data with
  | f :: r :: rest =>
    if r.head? ≠ some '"' then []
    else
      match txtJoin r rest with
      | none => []
      | some (rec, left) =>
        [{ rtype := "TXT", fqdn := String.mk f,
           target := String.mk (trimQuotes rec), ttl := ttlOf left }]
  | _ => []

/-- The MX parser (`parse_mx` in `tinydns/parser.rs`, lines 226-291): needs
three fields, a valid IPv4, helper FQDN `x` used verbatim when it contains
a dot and synthesized as `x.mx.fqdn` otherwise; emits one MX record and
one A record for the mail host. -/
def parse_mx (data : String) : List TinyDNSRecord :=
  match splitCh ':' data.data with
  | f :: ip :: x :: rest =>
    if ¬ isIpv4 ip then []
    else
      let fqdn := String.mk f
      let mx_fqdn := if '.' ∈ x then String.mk x else String.mk x ++ ".mx." ++ fqdn
      let dist_ttl : Int × Int :=
        match rest with
        | [] => (0, 300)
        | [d] => ((parseI32 d).getD 0, 300)
        | d :: t :: _ => ((parseI32 d).getD 0, (parseI32 t).getD 300)
      [{ rtype := "MX", fqdn := fqdn,
         target := toString dist_ttl.1 ++ " " ++ mx_fqdn, ttl := dist_ttl.2 },
       { rtype := "A", fqdn := mx_fqdn,
         target := String.mk ip, ttl := dist_ttl.2 }]
  | _ => []

/-- The SOA parser (`parse_soa` in `tinydns/parser.rs`, lines 297-370).  The
`now` argument stands for the Unix epoch seconds read from `SystemTime`
in the source; serial/refresh/retry/expire/min/ttl default to
`(now, 16384, 2048, 1048576, 2560, 300)` and the target concatenates the
seven SOA components separated by single spaces. -/
def parse_soa (now : Nat) (data : String) : List TinyDNSRecord :=
  match splitCh ':' data.data with
  | f :: ns :: contact :: rest =>
    let fields : Nat × Int × Int × Int × Int × Int :=
      match rest with
      | [] => (now, 16384, 2048, 1048576, 2560, 300)
      | [p1] => ((parseU64 p1).getD now, 16384, 2048, 1048576, 2560, 300)
      | [p1, p2] => ((parseU64 p1).getD now, (parseI32 p2).getD 16384,
          2048, 1048576, 2560, 300)
      | [p1, p2, p3] => ((parseU64 p1).getD now, (parseI32 p2).getD 16384,
          (parseI32 p3).getD 2048, 1048576, 2560, 300)
      | [p1, p2, p3, p4] => ((parseU64 p1).getD now, (parseI32 p2).getD 16384,
          (parseI32 p3).getD 2048, (parseI32 p4).getD 1048576, 2560, 300)
      | [p1, p2, p3, p4, p5] => ((parseU64 p1).getD now, (parseI32 p2).getD 16384,
          (parseI32 p3).getD 2048, (parseI32 p4).getD 1048576,
          (parseI32 p5).getD 2560, 300)
      | p1 :: p2 :: p3 :: p4 :: p5 :: p6 :: _ =>
          ((parseU64 p1).getD now, (parseI32 p2).getD 16384,
          (parseI32 p3).getD 2048, (parseI32 p4).getD 1048576,
          (parseI32 p5).getD 2560, (parseI32 p6).getD 300)
    match fields with
    | (ser, refr, retr, exp, mn, ttl) =>
      [{ rtype := "SOA", fqdn := String.mk f,
         target := String.mk ns ++ " " ++ String.mk contact ++ " " ++
           toString ser ++ " " ++ toString refr ++ " " ++ toString retr ++ " " ++
           toString exp ++ " " ++ toString mn,
         ttl := ttl }]
  | _ => []

/-- The combined A/NS/SOA parser (`parse_anssoa` in `tinydns/parser.rs`,
lines 377-448): needs three fields; the ip field is validated as an IPv4
address before anything is emitted; emits one NS record, one A record
guarded by `!ip.is_empty()`, and one SOA record with fixed timer values. -/
def parse_anssoa (data : String) : List TinyDNSRecord :=
  match splitCh ':' data.data with
  | f :: ip :: x :: rest =>
    if ¬ isIpv4 ip then []
    else
      let fqdn := String.mk f
      let ttl := ttlOf rest
      let ns_fqdn := if '.' ∈ x then String.mk x else String.mk x ++ ".ns." ++ fqdn
      let tdr1 : TinyDNSRecord :=
        { rtype := "NS", fqdn := ns_fqdn, target := fqdn, ttl := ttl }
      let tdr3 : TinyDNSRecord :=
        { rtype := "SOA", fqdn := fqdn,
          target := ns_fqdn ++ " hostmaster." ++ fqdn ++ " 1 1 1 1 60", ttl := ttl }
      if ip ≠ [] then
        [tdr1, { rtype := "A", fqdn := ns_fqdn, target := String.mk ip, ttl := ttl }, tdr3]
      else [tdr1, tdr3]
  | _ => []

/-- The combined A/NS parser (`parse_ans` in `tinydns/parser.rs`, lines
454-513): like `parse_anssoa` without the SOA record and without the
emptiness guard on the A record. -/
def parse_ans (data : String) : List TinyDNSRecord :=
  match splitCh ':' data.data with
  | f :: ip :: x :: rest =>
    if ¬ isIpv4 ip then []
    else
      let fqdn := String.mk f
      let ttl := ttlOf rest
      let ns_fqdn := if '.' ∈ x then String.mk x else String.mk x ++ ".ns." ++ fqdn
      [{ rtype := "NS", fqdn := ns_fqdn, target := fqdn, ttl := ttl },
       { rtype := "A", fqdn := ns_fqdn, target := String.mk ip, ttl := ttl }]
  | _ => []

/-- The combined A/PTR parser (`parse_aptr` in `tinydns/parser.rs`, lines
519-577): the PTR owner is synthesized by reversing the IP octets and
appending `.in-addr.arpa`. -/
def parse_aptr (data : String) : List TinyDNSRecord :=
  match splitCh ':' data.data with
  | f :: ip :: rest =>
    if ¬ isIpv4 ip then []
    else
      let fqdn := String.mk f
      let ttl := ttlOf rest
      let ptr_fqdn :=
        String.mk (List.intercalate ['.'] (splitCh '.' ip).reverse) ++ ".in-addr.arpa"
      [{ rtype := "A", fqdn := fqdn, target := String.mk ip, ttl := ttl },
       { rtype := "PTR", fqdn := ptr_fqdn, target := fqdn, ttl := ttl }]
  | _ => []

/-- Helper capturing the tail of `from_string`: an empty parse result maps to
`None`, a non-empty one to `Some`. -/
def emptyToNone (l : List TinyDNSRecord) : Option (List TinyDNSRecord) :=
  if l.isEmpty then none else some l

/-- Line dispatch (`from_string` in `tinydns/parser.rs`, lines 50-79): the
line is split after its first character (`split_at(1)`; modelled at
character granularity, which coincides for the ASCII prefixes the match
recognizes) and dispatched on the prefix; `-` and `#` return successfully
with zero records, an unrecognized prefix produces the empty vector and
hence `None`. -/
def from_string (now : Nat) (line : String) : Option (List TinyDNSRecord) :=
  let pfx := String.mk (line.data.take 1)
  let data := String.mk (line.data.drop 1)
  if pfx = "+" then emptyToNone (parse "A" data)
  else if pfx = "^" then emptyToNone (parse "PTR" data)
  else if pfx = "C" then emptyToNone (parse "CNAME" data)
  else if pfx = String.mk [Char.ofNat 39] then emptyToNone (parse_txt data)
  else if pfx = "@" then emptyToNone (parse_mx data)
  else if pfx = "Z" then emptyToNone (parse_soa now data)
  else if pfx = "." then emptyToNone (parse_anssoa data)
  else if pfx = "&" then emptyToNone (parse_ans data)
  else if pfx = "=" then emptyToNone (parse_aptr data)
  else if pfx = "-" then some []
  else if pfx = "#" then some []
  else emptyToNone []

/-- The line-processing loop of `from_file` (`tinydns/parser.rs` lines
28-34): each line goes through `from_string`; a successful parse is
appended, a `None` makes the whole call return `None` immediately. -/
def collectLines (now : Nat) : List String → Option (List TinyDNSRecord)
  | [] => some []
  | l :: ls =>
    match from_string now l with
    | some x =>
      match collectLines now ls with
      | some r => some (x ++ r)
      | none => none
    | none => none

/-- The comparison-with-last-retained loop of `Vec::dedup`: `prev` is the
last element kept; an element equal to it (under the TTL-ignoring
`tdrEqB`) is dropped, a differing one is kept and becomes the new
comparison point. -/
def dedupAux (prev : TinyDNSRecord) : List TinyDNSRecord → List TinyDNSRecord
  | [] => []
  | b :: rest =>
    if tdrEqB prev b then dedupAux prev rest
    else b :: dedupAux b rest

/-- Removal of consecutive duplicates, modelling `Vec::dedup` with the
`PartialEq` of `TinyDNSRecord` (TTL ignored). -/
def dedupTDR : List TinyDNSRecord → List TinyDNSRecord
  | [] => []
  | a :: rest => a :: dedupAux a rest

/-- File parsing after I/O (`from_file` in `tinydns/parser.rs`, lines
10-45), applied to the list of lines read from the file: process each
line with `from_string` (aborting with `None` on the first failing line),
then sort by fqdn (Rust `Vec::sort` is stable; so is the insertion sort
used here, and under the fqdn-only comparator the results of the two
stable sorts coincide) and remove consecutive duplicates.  The
`check_dups` pass of the source only prints warnings and is omitted. -/
def from_lines (now : Nat) (lines : List String) : Option (List TinyDNSRecord) :=
  match collectLines now lines with
  | some r => some (dedupTDR (List.insertionSort tdrLe r))
  | none => none

/-! ## Order-theoretic facts about the lexicographic comparator -/

theorem listCharLeB_total : ∀ l1 l2 : List Char,
    listCharLeB l1 l2 = true ∨ listCharLeB l2 l1 = true
  | [], _ => Or.inl rfl
  | _ :: _, [] => Or.inr rfl
  | a :: as, b :: bs => by
    rcases lt_trichotomy a b with h | h | h
    · left; simp [listCharLeB, h]
    · subst h
      rcases listCharLeB_total as bs with ih | ih
      · left; simp [listCharLeB, lt_irrefl, ih]
      · right; simp [listCharLeB, lt_irrefl, ih]
    · right; simp [listCharLeB, h]

theorem listCharLeB_trans : ∀ l1 l2 l3 : List Char,
    listCharLeB l1 l2 = true → listCharLeB l2 l3 = true → listCharLeB l1 l3 = true
  | [], _, _, _, _ => rfl
  | a :: as, [], _, h12, _ => by simp [listCharLeB] at h12
  | _ :: _, _ :: _, [], _, h23 => by simp [listCharLeB] at h23
  | a :: as, b :: bs, c :: cs, h12, h23 => by
    rcases lt_trichotomy a b with hab | hab | hab
    · rcases lt_trichotomy b c with hbc | hbc | hbc
      · simp [listCharLeB, lt_trans hab hbc]
      · subst hbc; simp [listCharLeB, hab]
      · simp [listCharLeB, lt_asymm hbc, hbc] at h23
    · subst hab
      rcases lt_trichotomy a c with hbc | hbc | hbc
      · simp [listCharLeB, hbc]
      · subst hbc
        simp [listCharLeB, lt_irrefl] at h12 h23 ⊢
        exact listCharLeB_trans as bs cs h12 h23
      · simp [listCharLeB, lt_asymm hbc, hbc] at h23
    · simp [listCharLeB, lt_asymm hab, hab] at h12

theorem listCharLeB_antisymm : ∀ l1 l2 : List Char,
    listCharLeB l1 l2 = true → listCharLeB l2 l1 = true → l1 = l2
  | [], [], _, _ => rfl
  | [], _ :: _, _, h21 => by simp [listCharLeB] at h21
  | _ :: _, [], h12, _ => by simp [listCharLeB] at h12
  | a :: as, b :: bs, h12, h21 => by
    rcases lt_trichotomy a b with hab | hab | hab
    · simp [listCharLeB, hab, lt_asymm hab] at h21
    · subst hab
      simp [listCharLeB, lt_irrefl] at h12 h21
      rw [listCharLeB_antisymm as bs h12 h21]
    · simp [listCharLeB, hab, lt_asymm hab] at h12

instance : IsTotal String strLe :=
  ⟨fun a b => listCharLeB_total a.data b.data⟩

instance : IsTrans String strLe :=
  ⟨fun a b c => listCharLeB_trans a.data b.data c.data⟩

instance : IsAntisymm String strLe :=
  ⟨fun a b h1 h2 => by
    cases a; cases b
    exact congrArg String.mk (listCharLeB_antisymm _ _ h1 h2)⟩

instance : IsTotal TinyDNSRecord tdrLe :=
  ⟨fun a b => listCharLeB_total a.fqdn.data b.fqdn.data⟩

instance : IsTrans TinyDNSRecord tdrLe :=
  ⟨fun a b c => listCharLeB_trans a.fqdn.data b.fqdn.data c.fqdn.data⟩

/-- C9: `Resource` equality is order-insensitive in `values`: permuting the
`records` list of one side of an otherwise equal pair leaves the records
equal, and two `Resource`s are equal exactly when `zone_id`, `name`,
`rtype`, `ttl` and the sorted `records` lists all coincide (sorted-list
equality counts duplicated entries). -/
theorem resource_eq_perm_invariant (a b : Resource) :
    (a.records.Perm b.records → a.zone_id = b.zone_id → a.name = b.name →
      a.rtype = b.rtype → a.ttl = b.ttl → resourceEqB a b = true)
    ∧ (resourceEqB a b = true ↔
        a.zone_id = b.zone_id ∧ a.name = b.name ∧ a.rtype = b.rtype ∧
        sortStrings a.records = sortStrings b.records ∧ a.ttl = b.ttl) := by
  constructor
  · intro hperm h1 h2 h3 h4
    have hsort : sortStrings a.records = sortStrings b.records :=
      List.eq_of_perm_of_sorted
        (((List.perm_insertionSort strLe a.records).trans hperm).trans
          (List.perm_insertionSort strLe b.records).symm)
        (List.sorted_insertionSort strLe a.records)
        (List.sorted_insertionSort strLe b.records)
    simp [resourceEqB, sortStrings, and_assoc] at hsort ⊢
    exact ⟨h1, h2, h3, hsort, h4⟩
  · simp [resourceEqB, sortStrings, and_assoc]

/-- Witness for C9 at a concrete pair of resources whose `records` lists are
permutations of one another. -/
theorem resource_eq_perm_invariant_witness :
    resourceEqB
      { zone_id := "Z1", name := "foo.test.com", rtype := "A",
        records := ["1.2.3.4", "5.6.7.8"], ttl := 300 }
      { zone_id := "Z1", name := "foo.test.com", rtype := "A",
        records := ["5.6.7.8", "1.2.3.4"], ttl := 300 } = true :=
  (resource_eq_perm_invariant _ _).1 (by decide) rfl rfl rfl rfl

/-! ## Lookup lemmas for the association-list model of `HashMap` -/

theorem rlookup_eraseKey (k k2 : String) (m : RMap) :
    rlookup k (eraseKey k2 m) = if k2 = k then none else rlookup k m := by
  induction m with
  | nil => simp [eraseKey, rlookup]
  | cons p rest ih =>
    obtain ⟨k3, v⟩ := p
    by_cases h3 : k3 = k2
    · subst h3
      by_cases hk : k3 = k
      · subst hk
        simp [eraseKey, rlookup, ih]
      · simp [eraseKey, rlookup, hk, ih]
    · by_cases hk : k3 = k
      · subst hk
        have : ¬ k2 = k3 := fun h => h3 h.symm
        simp [eraseKey, rlookup, h3, this]
      · simp [eraseKey, rlookup, h3, hk, ih]

theorem rlookup_insertKV (k k2 : String) (v : Resource) (m : RMap) :
    rlookup k (insertKV k2 v m) = if k2 = k then some v else rlookup k m := by
  by_cases hk : k2 = k
  · simp [insertKV, rlookup, hk]
  · simp [insertKV, rlookup, hk, rlookup_eraseKey]

theorem rlookup_isSome_iff (k : String) (m : RMap) :
    (rlookup k m).isSome = true ↔ ∃ v, (k, v) ∈ m := by
  induction m with
  | nil => simp [rlookup]
  | cons p rest ih =>
    obtain ⟨k2, v2⟩ := p
    by_cases hk : k2 = k
    · subst hk
      simp [rlookup]
    · have : ¬ k = k2 := fun h => hk h.symm
      simp [rlookup, hk, ih, this]

theorem rlookup_some_mem {k : String} {m : RMap} {v : Resource}
    (h : rlookup k m = some v) : (k, v) ∈ m := by
  induction m with
  | nil => simp [rlookup] at h
  | cons p rest ih =>
    obtain ⟨k2, v2⟩ := p
    by_cases hk : k2 = k
    · subst hk
      simp [rlookup] at h
      simp [h]
    · simp [rlookup, hk] at h
      simp [ih h]

theorem mem_rlookup_of_nodup {k : String} {m : RMap} {v : Resource}
    (hnd : (m.map Prod.fst).Nodup) (h : (k, v) ∈ m) : rlookup k m = some v := by
  induction m with
  | nil => simp at h
  | cons p rest ih =>
    obtain ⟨k2, v2⟩ := p
    simp only [List.map_cons, List.nodup_cons] at hnd
    rcases List.mem_cons.mp h with h | h
    · cases h
      simp [rlookup]
    · have hk : ¬ k2 = k := by
        intro he
        subst he
        exact hnd.1 (List.mem_map_of_mem Prod.fst h)
      simp [rlookup, hk, ih hnd.2 h]

theorem rlookup_eraseFold (k : String) : ∀ (ks : List String) (m : RMap),
    rlookup k (ks.foldl (fun m k2 => eraseKey k2 m) m) =
      if k ∈ ks then none else rlookup k m
  | [], m => by simp
  | k2 :: rest, m => by
    simp only [List.foldl_cons]
    rw [rlookup_eraseFold k rest (eraseKey k2 m), rlookup_eraseKey]
    by_cases h2 : k2 = k
    · subst h2
      simp
    · have : ¬ k = k2 := fun h => h2 h.symm
      simp [h2, this]

theorem rlookup_updFold (k : String) (f : String → Option Resource) :
    ∀ (ks : List String) (m : RMap),
    rlookup k (ks.foldl (fun m k2 =>
        match f k2 with
        | some x => insertKV k2 x m
        | none => m) m) =
      if k ∈ ks ∧ (f k).isSome then f k else rlookup k m
  | [], m => by simp
  | k2 :: rest, m => by
    simp only [List.foldl_cons]
    rw [rlookup_updFold k f rest _]
    by_cases h2 : k2 = k
    · subst h2
      cases hf : f k2 with
      | none => simp [hf]
      | some x => simp [hf, rlookup_insertKV]
    · have hne : ¬ k = k2 := fun h => h2 h.symm
      have hm : rlookup k (match f k2 with
          | some x => insertKV k2 x m
          | none => m) = rlookup k m := by
        cases hf : f k2 with
        | none => rfl
        | some x => simp [rlookup_insertKV, h2]
      rw [hm]
      simp [h2, hne]

/-- Pointwise description of `state_remote`: assuming the state map has
unique keys (a `HashMap` invariant), a key survives exactly when it is
bound in both state and remote, keeping the state record when the two
agree and taking the remote record otherwise. -/
theorem state_remote_lookup (st re : RMap) (hnd : (st.map Prod.fst).Nodup)
    (k : String) :
    rlookup k (state_remote st re) =
      match rlookup k st, rlookup k re with
      | some s, some r => some (if resourceEqB s r then s else r)
      | some _, none => none
      | none, _ => none := by
  unfold state_remote
  rw [rlookup_updFold k (fun k2 => rlookup k2 re), rlookup_eraseFold k]
  have hdel : (k ∈ (st.filter (fun p => (rlookup p.1 re).isNone)).map Prod.fst) ↔
      ((rlookup k st).isSome ∧ (rlookup k re) = none) := by
    simp only [List.mem_map, List.mem_filter]
    constructor
    · rintro ⟨⟨k3, v⟩, ⟨hmem, hpred⟩, hfst⟩
      cases hfst
      refine ⟨(rlookup_isSome_iff _ _).mpr ⟨v, hmem⟩, ?_⟩
      simpa [Option.isNone_iff_eq_none] using hpred
    · rintro ⟨hsome, hnone⟩
      obtain ⟨v, hmem⟩ := (rlookup_isSome_iff _ _).mp hsome
      exact ⟨(k, v), ⟨hmem, by simpa [Option.isNone_iff_eq_none] using hnone⟩, rfl⟩
  have hupd : (k ∈ (st.filter (fun p =>
        match rlookup p.1 re with
        | some remote => !resourceEqB p.2 remote
        | none => false)).map Prod.fst) ↔
      (∃ s r, rlookup k st = some s ∧ rlookup k re = some r ∧
        resourceEqB s r = false) := by
    simp only [List.mem_map, List.mem_filter]
    constructor
    · rintro ⟨⟨k3, v⟩, ⟨hmem, hpred⟩, hfst⟩
      have hk3 : k3 = k := hfst
      refine ⟨v, ?_⟩
      have hv := mem_rlookup_of_nodup hnd (hk3 ▸ hmem)
      rw [hk3] at hpred
      cases hre : rlookup k re with
      | none => rw [hre] at hpred; simp at hpred
      | some r =>
        rw [hre] at hpred
        simp at hpred
        exact ⟨r, hv, rfl, hpred⟩
    · rintro ⟨s, r, hs, hr, heq⟩
      refine ⟨(k, s), ⟨rlookup_some_mem hs, ?_⟩, rfl⟩
      simp only [hr]
      simp [heq]
  cases hst : rlookup k st with
  | none =>
    have h1 : ¬ ((rlookup k st).isSome ∧ (rlookup k re) = none) := by
      simp [hst]
    have h2 : ¬ (∃ s r, rlookup k st = some s ∧ rlookup k re = some r ∧
        resourceEqB s r = false) := by
      simp [hst]
    rw [if_neg (by rw [hupd]; exact fun h => h2 h.1), if_neg (by rw [hdel]; exact h1)]
  | some s =>
    cases hre : rlookup k re with
    | none =>
      have h2 : ¬ (∃ s r, rlookup k st = some s ∧ rlookup k re = some r ∧
          resourceEqB s r = false) := by
        simp [hre]
      rw [if_neg (by rw [hupd]; exact fun h => h2 h.1),
          if_pos (by rw [hdel]; exact ⟨by simp [hst], hre⟩)]
    | some r =>
      cases heq : resourceEqB s r with
      | true =>
        have h2 : ¬ (∃ s2 r2, rlookup k st = some s2 ∧ rlookup k re = some r2 ∧
            resourceEqB s2 r2 = false) := by
          rintro ⟨s2, r2, hs2, hr2, he2⟩
          rw [hst] at hs2; rw [hre] at hr2
          cases hs2; cases hr2
          rw [heq] at he2; cases he2
        have h1 : ¬ ((rlookup k st).isSome ∧ (rlookup k re) = none) := by
          simp [hre]
        rw [if_neg (by rw [hupd]; exact fun h => h2 h.1), if_neg (by rw [hdel]; exact h1)]
        simp [hst, heq]
      | false =>
        rw [if_pos (by
          refine ⟨hupd.mpr ⟨s, r, hst, hre, heq⟩, ?_⟩
          simp [hre])]
        simp [hre, heq]

theorem resourceEqB_refl (a : Resource) : resourceEqB a a = true := by
  simp [resourceEqB]

/-- C8: after `state_remote` (with the hashmap invariant of unique state
keys), every original state key bound differently in remote is rebound to
the remote record, every original state key absent from remote is removed,
no key absent from the original state is inserted, and consequently every
key of the final state is present in remote with an equal record. -/
theorem state_remote_spec (st re : RMap) (hnd : (st.map Prod.fst).Nodup) :
    (∀ k s r, rlookup k st = some s → rlookup k re = some r →
      resourceEqB s r = false → rlookup k (state_remote st re) = some r)
    ∧ (∀ k s, rlookup k st = some s → rlookup k re = none →
      rlookup k (state_remote st re) = none)
    ∧ (∀ k, rlookup k st = none → rlookup k (state_remote st re) = none)
    ∧ (∀ k v, rlookup k (state_remote st re) = some v →
      ∃ r, rlookup k re = some r ∧ resourceEqB v r = true) := by
  refine ⟨?_, ?_, ?_, ?_⟩
  · intro k s r hs hr heq
    rw [state_remote_lookup st re hnd k, hs, hr]
    simp [heq]
  · intro k s hs hr
    rw [state_remote_lookup st re hnd k, hs, hr]
  · intro k hs
    rw [state_remote_lookup st re hnd k, hs]
  · intro k v hv
    rw [state_remote_lookup st re hnd k] at hv
    cases hst : rlookup k st with
    | none => rw [hst] at hv; simp at hv
    | some s =>
      cases hre : rlookup k re with
      | none => rw [hst, hre] at hv; simp at hv
      | some r =>
        rw [hst, hre] at hv
        simp at hv
        refine ⟨r, rfl, ?_⟩
        cases heq : resourceEqB s r with
        | false =>
          rw [heq] at hv
          simp at hv
          rw [← hv]
          exact resourceEqB_refl r
        | true =>
          rw [heq] at hv
          simp at hv
          rw [← hv]
          exact heq

/-- Witness for C8 at a concrete one-key state facing a drifted remote. -/
theorem state_remote_spec_witness :
    rlookup "a-foo"
      (state_remote
        [("a-foo", { zone_id := "Z1", name := "foo", rtype := "A",
                     records := ["1.1.1.1"], ttl := 300 })]
        [("a-foo", { zone_id := "Z1", name := "foo", rtype := "A",
                     records := ["2.2.2.2"], ttl := 300 })]) =
      some { zone_id := "Z1", name := "foo", rtype := "A",
             records := ["2.2.2.2"], ttl := 300 } :=
  (state_remote_spec _ _ (by decide)).1 "a-foo"
    { zone_id := "Z1", name := "foo", rtype := "A", records := ["1.1.1.1"], ttl := 300 }
    { zone_id := "Z1", name := "foo", rtype := "A", records := ["2.2.2.2"], ttl := 300 }
    (by decide) (by decide) (by decide)

/-- C1: evaluation of the `local_state` loop (as written in the source) at a
key bound in both maps with differing records: the `updated` component
binds the key to the STATE record, which differs from the local record —
the claim that `updated[k] = local[k]` fails on the code (whose loop, in
addition, does not compile as Rust). -/
theorem local_state_updated_binds_state_record :
    rlookup "a-foo"
      (local_state
        [("a-foo", { zone_id := "Z1", name := "foo", rtype := "A",
                     records := ["1.1.1.1"], ttl := 300 })]
        [("a-foo", { zone_id := "Z1", name := "foo", rtype := "A",
                     records := ["2.2.2.2"], ttl := 300 })]).2.1 =
      some { zone_id := "Z1", name := "foo", rtype := "A",
             records := ["2.2.2.2"], ttl := 300 } ∧
    ({ zone_id := "Z1", name := "foo", rtype := "A",
       records := ["2.2.2.2"], ttl := 300 } : Resource) ≠
      { zone_id := "Z1", name := "foo", rtype := "A",
        records := ["1.1.1.1"], ttl := 300 } := by decide

/-- C2: the `bulk_put` batching loop violates the claim: with 250 queued
changes the first submitted batch contains 151 changes (more than 100),
and with a single queued change the loop never drains — for every fuel
bound the loop fails to terminate (each turn retains the whole list, since
`split_off(min(len, 99))` keeps the first `min(len, 99)` elements in
place). -/
theorem bulk_put_batch_oversized_and_nonterminating :
    (bulkPutChunk (List.replicate 250 (0 : Nat))).length = 151 ∧
    100 < (bulkPutChunk (List.replicate 250 (0 : Nat))).length ∧
    (∀ fuel : Nat, bulkPutBatches fuel [(0 : Nat)] = none) := by
  have hlen : (bulkPutChunk (List.replicate 250 (0 : Nat))).length = 151 := by
    simp only [bulkPutChunk, List.length_drop, List.length_replicate]
    norm_num
  refine ⟨hlen, by rw [hlen]; norm_num, ?_⟩
  intro fuel
  induction fuel with
  | zero => rfl
  | succ f ih => simp [bulkPutBatches, ih]

/-- C7: a well-formed `.` line with an empty ip field yields ZERO records,
not the claimed NS and SOA records: `parse_anssoa` validates the ip field
as an IPv4 address before its `!ip.is_empty()` guard is ever consulted,
and the empty string does not parse as an address (contradicting the
source's own comments `// This can be empty` and its emptiness guard). -/
theorem parse_anssoa_empty_ip_yields_nothing :
    parse_anssoa "test.com::foo.test.com:300" = [] ∧
    from_string 0 ".test.com::foo.test.com:300" = none := by decide

/-- C4 counterexample: a single malformed line (too few fields) DOES abort
parsing of the whole file — `from_lines` returns `none` even though the
remaining line parses on its own, and a line with an unrecognized prefix
likewise produces `none` rather than being skipped with a warning. -/
theorem from_lines_counterexample :
    from_lines 0 ["+justonefield", "+foo.test.com:1.2.3.4:300"] = none ∧
    from_string 0 "bad data with no recognized first byte" = none ∧
    from_lines 0 ["+foo.test.com:1.2.3.4:300"] =
      some [{ rtype := "A", fqdn := "foo.test.com", target := "1.2.3.4",
              ttl := 300 }] := by decide

theorem collectLines_none {now : Nat} {line : String} :
    ∀ {lines : List String}, line ∈ lines → from_string now line = none →
      collectLines now lines = none := by
  intro lines
  induction lines with
  | nil => intro h; simp at h
  | cons l ls ih =>
    intro hmem hfs
    rcases List.mem_cons.mp hmem with h | h
    · subst h
      simp [collectLines, hfs]
    · simp only [collectLines]
      cases hl : from_string now l with
      | none => rfl
      | some x => rw [ih h hfs]

/-- C4 (amended): a malformed line makes `from_string` return `none` and
`from_file` then aborts, returning `none` for the whole file; a line whose
first character matches none of the recognized prefixes also yields
`none` from `from_string` (after printing a warning), rather than being
skipped. -/
theorem from_lines_malformed_aborts :
    (∀ (now : Nat) (lines : List String) (line : String),
      line ∈ lines → from_string now line = none → from_lines now lines = none)
    ∧ (∀ (now : Nat) (line : String),
      (∀ p ∈ (["+", "^", "C", String.mk [Char.ofNat 39], "@", "Z", ".", "&",
               "=", "-", "#"] : List String),
        String.mk (line.data.take 1) ≠ p) →
      from_string now line = none) := by
  constructor
  · intro now lines line hmem hfs
    simp [from_lines, collectLines_none hmem hfs]
  · intro now line h
    have h1 := h "+" (by simp)
    have h2 := h "^" (by simp)
    have h3 := h "C" (by simp)
    have h4 := h (String.mk [Char.ofNat 39]) (by simp)
    have h5 := h "@" (by simp)
    have h6 := h "Z" (by simp)
    have h7 := h "." (by simp)
    have h8 := h "&" (by simp)
    have h9 := h "=" (by simp)
    have h10 := h "-" (by simp)
    have h11 := h "#" (by simp)
    simp [from_string, emptyToNone, h1, h2, h3, h4, h5, h6, h7, h8, h9, h10, h11]

/-- Witness for the amended C4 at a concrete malformed line and a concrete
unrecognized prefix. -/
theorem from_lines_malformed_aborts_witness :
    from_lines 0 ["+justonefield", "Cok.test.com:foo.test.com:300"] = none ∧
    from_string 0 "no prefix here" = none :=
  ⟨from_lines_malformed_aborts.1 0 _ "+justonefield" (by simp) (by decide),
   from_lines_malformed_aborts.2 0 "no prefix here" (by decide)⟩

/-- C5 counterexample: two identical `+` lines separated by a CNAME for the
same fqdn survive the sort-then-consecutive-dedup post-processing: the
stable sort (all three records share the fqdn) leaves the duplicate
records non-adjacent and `dedup` keeps both, so the output is NOT free of
equal record pairs. -/
theorem from_lines_dup_counterexample :
    from_lines 0 ["+foo.test.com:1.2.3.4", "Cfoo.test.com:bar.com:300",
                  "+foo.test.com:1.2.3.4"] =
      some [{ rtype := "A", fqdn := "foo.test.com", target := "1.2.3.4", ttl := 300 },
            { rtype := "CNAME", fqdn := "foo.test.com", target := "bar.com", ttl := 300 },
            { rtype := "A", fqdn := "foo.test.com", target := "1.2.3.4", ttl := 300 }] ∧
    ¬ List.Pairwise (fun a b => tdrEqB a b = false)
      [{ rtype := "A", fqdn := "foo.test.com", target := "1.2.3.4", ttl := 300 },
       { rtype := "CNAME", fqdn := "foo.test.com", target := "bar.com", ttl := 300 },
       { rtype := "A", fqdn := "foo.test.com", target := "1.2.3.4", ttl := 300 }] := by
  decide

theorem dedupAux_sublist : ∀ (l : List TinyDNSRecord) (prev : TinyDNSRecord),
    (dedupAux prev l).Sublist l
  | [], _ => List.Sublist.refl _
  | b :: rest, prev => by
    by_cases h : tdrEqB prev b = true
    · simp only [dedupAux, if_pos h]
      exact (dedupAux_sublist rest prev).cons b
    · simp only [dedupAux, if_neg h]
      exact (dedupAux_sublist rest b).cons₂ b

theorem dedupTDR_sublist (l : List TinyDNSRecord) : (dedupTDR l).Sublist l := by
  cases l with
  | nil => exact List.Sublist.refl _
  | cons a rest => exact (dedupAux_sublist rest a).cons₂ a

theorem dedupAux_chain : ∀ (l : List TinyDNSRecord) (prev : TinyDNSRecord),
    List.Chain (fun a b => tdrEqB a b = false) prev (dedupAux prev l)
  | [], _ => List.Chain.nil
  | b :: rest, prev => by
    by_cases h : tdrEqB prev b = true
    · simp only [dedupAux, if_pos h]
      exact dedupAux_chain rest prev
    · simp only [dedupAux, if_neg h]
      exact List.Chain.cons (Bool.eq_false_iff.mpr h) (dedupAux_chain rest b)

theorem dedupTDR_chain (l : List TinyDNSRecord) :
    List.Chain' (fun a b => tdrEqB a b = false) (dedupTDR l) := by
  cases l with
  | nil => simp [dedupTDR]
  | cons a rest => exact dedupAux_chain rest a

/-- C5 (amended): every successful `from_file` output is sorted by fqdn and
free of CONSECUTIVE duplicate records (under the TTL-ignoring equality);
non-adjacent duplicates can remain, so the output is not fully
deduplicated in general. -/
theorem from_lines_sorted_and_consecutive_dedup :
    ∀ (now : Nat) (lines : List String) (out : List TinyDNSRecord),
      from_lines now lines = some out →
      List.Sorted tdrLe out ∧ List.Chain' (fun a b => tdrEqB a b = false) out := by
  intro now lines out h
  unfold from_lines at h
  cases hcl : collectLines now lines with
  | none => rw [hcl] at h; cases h
  | some r =>
    rw [hcl] at h
    injection h with h
    subst h
    constructor
    · exact List.Pairwise.sublist (dedupTDR_sublist _)
        (List.sorted_insertionSort tdrLe r)
    · exact dedupTDR_chain _

/-- Witness for the amended C5 at the concrete three-line input of the
counterexample. -/
theorem from_lines_sorted_and_consecutive_dedup_witness :
    List.Sorted tdrLe
      [{ rtype := "A", fqdn := "foo.test.com", target := "1.2.3.4", ttl := 300 },
       { rtype := "CNAME", fqdn := "foo.test.com", target := "bar.com", ttl := 300 },
       { rtype := "A", fqdn := "foo.test.com", target := "1.2.3.4", ttl := 300 }] ∧
    List.Chain' (fun a b => tdrEqB a b = false)
      [{ rtype := "A", fqdn := "foo.test.com", target := "1.2.3.4", ttl := 300 },
       { rtype := "CNAME", fqdn := "foo.test.com", target := "bar.com", ttl := 300 },
       { rtype := "A", fqdn := "foo.test.com", target := "1.2.3.4", ttl := 300 }] :=
  from_lines_sorted_and_consecutive_dedup 0
    ["+foo.test.com:1.2.3.4", "Cfoo.test.com:bar.com:300", "+foo.test.com:1.2.3.4"]
    _ (by decide)

/-- C3 counterexample: a record whose fqdn matches no configured zone makes
the whole conversion fail — `vec_from_tiny` returns `none` instead of the
claimed list of successfully converted remaining records. -/
theorem vec_from_tiny_counterexample :
    vec_from_tiny
      [{ rtype := "A", fqdn := "foo.test.com", target := "1.2.3.4", ttl := 300 },
       { rtype := "A", fqdn := "bar.other.org", target := "5.6.7.8", ttl := 300 }]
      [{ name := "test", domain := "test.com", id := "Z1" }] = none := by decide

theorem vftLoop_spec (zones : List R53Zone) : ∀ (recs : List TinyDNSRecord),
    (vftLoop zones recs).1 =
      recs.filterMap (fun r => (find_zone_id r zones).map (toResource r)) ∧
    ((vftLoop zones recs).2 = true ↔ ∃ r ∈ recs, find_zone_id r zones = none)
  | [] => by simp [vftLoop]
  | r :: rs => by
    obtain ⟨ih1, ih2⟩ := vftLoop_spec zones rs
    cases hz : find_zone_id r zones with
    | none =>
      constructor
      · simp [vftLoop, hz, ih1]
      · simp only [vftLoop, hz]
        simp
        exact Or.inl hz
    | some zid =>
      constructor
      · simp [vftLoop, hz, ih1]
      · simp only [vftLoop, hz]
        rw [ih2]
        constructor
        · rintro ⟨r2, hm, hn⟩
          exact ⟨r2, List.mem_cons_of_mem r hm, hn⟩
        · rintro ⟨r2, hm, hn⟩
          rcases List.mem_cons.mp hm with h | h
          · subst h; rw [hz] at hn; cases hn
          · exact ⟨r2, h, hn⟩

/-- C3 (amended): canonicalization drops a record without a zone match with
a warning but sets the error flag, and the whole conversion then fails:
`vec_from_tiny` returns `none` exactly when some record has no zone match,
and when it returns a list that list is the in-order conversion of the
records that do have a zone match. -/
theorem vec_from_tiny_missing_zone_is_hard_error :
    ∀ (recs : List TinyDNSRecord) (zones : List R53Zone),
      (vec_from_tiny recs zones = none ↔
        ∃ r ∈ recs, find_zone_id r zones = none)
      ∧ (∀ l, vec_from_tiny recs zones = some l →
          l = recs.filterMap (fun r => (find_zone_id r zones).map (toResource r))) := by
  intro recs zones
  obtain ⟨h1, h2⟩ := vftLoop_spec zones recs
  constructor
  · rw [← h2]
    unfold vec_from_tiny
    cases hflag : (vftLoop zones recs).2 with
    | true => simp [hflag]
    | false => simp [hflag]
  · intro l hl
    unfold vec_from_tiny at hl
    cases hflag : (vftLoop zones recs).2 with
    | true => simp [hflag] at hl
    | false =>
      simp [hflag] at hl
      rw [← hl, h1]

/-- Witness for the amended C3: a single orphan record against an empty zone
table makes the conversion fail. -/
theorem vec_from_tiny_missing_zone_witness :
    vec_from_tiny
      [{ rtype := "A", fqdn := "bar.other.org", target := "5.6.7.8", ttl := 300 }]
      [] = none :=
  (vec_from_tiny_missing_zone_is_hard_error _ _).1.mpr
    ⟨{ rtype := "A", fqdn := "bar.other.org", target := "5.6.7.8", ttl := 300 },
     by simp, by decide⟩

theorem brLoop_spec : ∀ (l : List Resource) (m : RMap) (b : Bool),
    brLoop (m, b) l = (buildMap m l, b || brErrExists m l)
  | [], m, b => by simp [brLoop, buildMap, brErrExists]
  | r :: rs, m, b => by
    simp only [brLoop, List.foldl_cons] at *
    rw [show (List.foldl (fun acc rec => (brMapStep acc.1 rec, acc.2 || brErrCond acc.1 rec))
        (brMapStep m r, b || brErrCond m r) rs) =
        brLoop (brMapStep m r, b || brErrCond m r) rs from rfl,
      brLoop_spec rs (brMapStep m r) (b || brErrCond m r)]
    simp [buildMap, brErrExists, Bool.or_assoc]

theorem brErrCond_iff (m : RMap) (r : Resource) :
    brErrCond m r = true ↔
      ∃ old, rlookup (resKey r) m = some old ∧
        (r.rtype = "PTR" ∨ r.rtype ≠ old.rtype) := by
  unfold brErrCond
  cases h : rlookup (resKey r) m with
  | none => simp
  | some old => simp [h]

theorem brErrExists_iff : ∀ (l : List Resource) (m : RMap),
    brErrExists m l = true ↔
      ∃ pre r post, l = pre ++ r :: post ∧
        brErrCond (buildMap m pre) r = true
  | [], m => by
    constructor
    · intro h; cases h
    · rintro ⟨pre, r, post, heq, -⟩
      exact absurd heq (by simp)
  | x :: xs, m => by
    simp only [brErrExists, Bool.or_eq_true]
    constructor
    · rintro (h | h)
      · exact ⟨[], x, xs, rfl, h⟩
      · obtain ⟨pre, r, post, heq, hc⟩ := (brErrExists_iff xs (brMapStep m x)).mp h
        exact ⟨x :: pre, r, post, by rw [heq]; rfl,
          by rwa [show buildMap m (x :: pre) = buildMap (brMapStep m x) pre from rfl]⟩
    · rintro ⟨pre, r, post, heq, hc⟩
      cases pre with
      | nil =>
        injection heq with h1 h2
        subst h1
        exact Or.inl hc
      | cons y pre2 =>
        injection heq with h1 h2
        subst h1
        refine Or.inr ((brErrExists_iff xs (brMapStep m x)).mpr
          ⟨pre2, r, post, h2, ?_⟩)
        rwa [show buildMap m (x :: pre2) = buildMap (brMapStep m x) pre2 from rfl] at hc

/-- C6 counterexample: `build_reshash` fails on a key collision in which no
PTR record is involved — the two records collide on the derived key
`a-b-c` with mismatching record types `A` and `A-B`, so the merge fails
and the build returns `None` although neither record is a PTR. -/
theorem build_reshash_counterexample :
    build_reshash
      [{ zone_id := "z", name := "b.c", rtype := "A", records := ["v1"], ttl := 300 },
       { zone_id := "z", name := "c", rtype := "A-B", records := ["v2"], ttl := 300 }] =
      none ∧
    ∀ r ∈ ([{ zone_id := "z", name := "b.c", rtype := "A", records := ["v1"], ttl := 300 },
            { zone_id := "z", name := "c", rtype := "A-B", records := ["v2"], ttl := 300 }] :
           List Resource), r.rtype ≠ "PTR" := by decide

/-- C6 (amended): index construction fails exactly when some record, at its
insertion, collides with the entry already stored under its derived key
and either the incoming record is a PTR or the two record types differ
(a failed merge); a collision of records with the same non-PTR type is
merged by concatenating the existing and the incoming `records` vectors
and does not fail. -/
theorem build_reshash_failure_iff :
    ∀ recs : List Resource,
      (build_reshash recs = none ↔
        ∃ pre r post, recs = pre ++ r :: post ∧
          ∃ old, rlookup (resKey r) (buildMap [] pre) = some old ∧
            (r.rtype = "PTR" ∨ r.rtype ≠ old.rtype))
      ∧ (∀ (m : RMap) (r old : Resource),
          rlookup (resKey r) m = some old → r.rtype ≠ "PTR" →
          r.rtype = old.rtype →
          rlookup (resKey r) (brMapStep m r) = some (mergeRes r old) ∧
          (mergeRes r old).records = old.records ++ r.records) := by
  intro recs
  constructor
  · unfold build_reshash
    rw [brLoop_spec recs [] false]
    simp only [Bool.false_or]
    cases hflag : brErrExists [] recs with
    | true =>
      rw [if_pos rfl]
      obtain ⟨pre, r, post, heq, hc⟩ := (brErrExists_iff recs []).mp hflag
      exact iff_of_true rfl ⟨pre, r, post, heq, (brErrCond_iff _ _).mp hc⟩
    | false =>
      rw [if_neg (by simp)]
      constructor
      · intro h; simp at h
      · rintro ⟨pre, r, post, heq, old, hold, hcase⟩
        have : brErrExists [] recs = true :=
          (brErrExists_iff recs []).mpr
            ⟨pre, r, post, heq, (brErrCond_iff _ _).mpr ⟨old, hold, hcase⟩⟩
        rw [hflag] at this
        cases this
  · intro m r old hold hptr htype
    constructor
    · simp only [brMapStep, hold]
      rw [if_neg hptr, if_pos htype, rlookup_insertKV]
      simp
    · rfl

/-- Witness for the amended C6: two `=`-line PTR records for the same IP
collide and fail the build (the spec's intended direction), and a
same-type non-PTR collision stores the concatenation of the existing and
incoming rdata vectors. -/
theorem build_reshash_failure_iff_witness :
    build_reshash
      [{ zone_id := "Z1", name := "4.3.2.1.in-addr.arpa", rtype := "PTR",
         records := ["a.example"], ttl := 300 },
       { zone_id := "Z1", name := "4.3.2.1.in-addr.arpa", rtype := "PTR",
         records := ["b.example"], ttl := 300 }] = none ∧
    rlookup
      (resKey { zone_id := "Z1", name := "foo", rtype := "A",
                records := ["2.2.2.2"], ttl := 300 })
      (brMapStep
        [(resKey { zone_id := "Z1", name := "foo", rtype := "A",
                   records := ["1.1.1.1"], ttl := 300 },
          { zone_id := "Z1", name := "foo", rtype := "A",
            records := ["1.1.1.1"], ttl := 300 })]
        { zone_id := "Z1", name := "foo", rtype := "A",
          records := ["2.2.2.2"], ttl := 300 }) =
      some (mergeRes
        { zone_id := "Z1", name := "foo", rtype := "A",
          records := ["2.2.2.2"], ttl := 300 }
        { zone_id := "Z1", name := "foo", rtype := "A",
          records := ["1.1.1.1"], ttl := 300 }) :=
  ⟨((build_reshash_failure_iff _).1).mpr
    ⟨[{ zone_id := "Z1", name := "4.3.2.1.in-addr.arpa", rtype := "PTR",
        records := ["a.example"], ttl := 300 }],
     { zone_id := "Z1", name := "4.3.2.1.in-addr.arpa", rtype := "PTR",
       records := ["b.example"], ttl := 300 },
     [], rfl,
     { zone_id := "Z1", name := "4.3.2.1.in-addr.arpa", rtype := "PTR",
       records := ["a.example"], ttl := 300 },
     by decide, Or.inl rfl⟩,
   (((build_reshash_failure_iff []).2
      [(resKey { zone_id := "Z1", name := "foo", rtype := "A",
                 records := ["1.1.1.1"], ttl := 300 },
        { zone_id := "Z1", name := "foo", rtype := "A",
          records := ["1.1.1.1"], ttl := 300 })]
      { zone_id := "Z1", name := "foo", rtype := "A",
        records := ["2.2.2.2"], ttl := 300 }
      { zone_id := "Z1", name := "foo", rtype := "A",
        records := ["1.1.1.1"], ttl := 300 }
      (by decide) (by decide) rfl)).1⟩

theorem fzFold_len_mono (fqdn : String) : ∀ (zones : List R53Zone)
    (acc : String × Option String),
    rlen acc.1 ≤ rlen (fzFold fqdn zones acc).1
  | [], _ => le_refl _
  | z :: zs, acc => by
    simp only [fzFold, List.foldl_cons]
    refine le_trans ?_ (fzFold_len_mono fqdn zs (fzStep fqdn acc z))
    unfold fzStep
    split
    · next h => exact le_of_lt h.2
    · exact le_refl _

theorem fzFold_sound (fqdn : String) : ∀ (zones : List R53Zone)
    (acc : String × Option String) (id : String),
    (fzFold fqdn zones acc).2 = some id →
    acc.2 = some id ∨
      ∃ z ∈ zones, containsSub fqdn z.domain ∧ z.id = id ∧
        rlen acc.1 < rlen z.domain
  | [], _, _, h => Or.inl h
  | z :: zs, acc, id, h => by
    simp only [fzFold, List.foldl_cons] at h
    rcases fzFold_sound fqdn zs (fzStep fqdn acc z) id h with h2 | ⟨z2, hm, hc, hi, hl⟩
    · unfold fzStep at h2
      by_cases hcond : containsSub fqdn z.domain ∧ rlen z.domain > rlen acc.1
      · rw [if_pos hcond] at h2
        injection h2 with h2
        exact Or.inr ⟨z, List.mem_cons_self z zs, hcond.1, h2, hcond.2⟩
      · rw [if_neg hcond] at h2
        exact Or.inl h2
    · refine Or.inr ⟨z2, List.mem_cons_of_mem z hm, hc, hi, lt_of_le_of_lt ?_ hl⟩
      unfold fzStep
      split
      · next hcond => exact le_of_lt hcond.2
      · exact le_refl _

theorem fzFold_stuck (fqdn : String) : ∀ (zones : List R53Zone)
    (acc : String × Option String),
    (∀ z ∈ zones, containsSub fqdn z.domain → rlen z.domain ≤ rlen acc.1) →
    fzFold fqdn zones acc = acc
  | [], _, _ => rfl
  | z :: zs, acc, h => by
    simp only [fzFold, List.foldl_cons]
    have hstep : fzStep fqdn acc z = acc := by
      unfold fzStep
      rw [if_neg ?_]
      rintro ⟨hc, hgt⟩
      exact absurd (h z (List.mem_cons_self z zs) hc) (not_le_of_lt hgt)
    rw [hstep]
    exact fzFold_stuck fqdn zs acc (fun z2 hm hc => h z2 (List.mem_cons_of_mem z hm) hc)

/-- C10: `find_zone_id` starts its best-match accumulator at the sentinel
`("X", None)` whose domain component has byte length 1 and replaces it
only on a strictly longer matching domain, so any returned zone id belongs
to a matching zone whose domain has byte length at least 2; when every
matching zone has a domain of byte length at most 1 no zone id is returned
at all; and appending a matching zone whose domain length merely TIES the
accumulated best-match length leaves the selection unchanged (first
declared wins). -/
theorem find_zone_id_sentinel_spec (rec : TinyDNSRecord) (zones : List R53Zone) :
    (∀ id, find_zone_id rec zones = some id →
      ∃ z ∈ zones, z.id = id ∧ containsSub rec.fqdn z.domain ∧ 2 ≤ rlen z.domain)
    ∧ ((∀ z ∈ zones, containsSub rec.fqdn z.domain → rlen z.domain ≤ 1) →
      find_zone_id rec zones = none)
    ∧ (∀ z : R53Zone, containsSub rec.fqdn z.domain →
      rlen z.domain = rlen (fzFold rec.fqdn zones ("X", none)).1 →
      find_zone_id rec (zones ++ [z]) = find_zone_id rec zones) := by
  refine ⟨?_, ?_, ?_⟩
  · intro id h
    rcases fzFold_sound rec.fqdn zones ("X", none) id h with h2 | ⟨z, hm, hc, hi, hl⟩
    · cases h2
    · have hx : rlen ("X", (none : Option String)).1 = 1 := by decide
      rw [hx] at hl
      exact ⟨z, hm, hi, hc, hl⟩
  · intro h
    unfold find_zone_id
    rw [fzFold_stuck rec.fqdn zones ("X", none) ?_]
    intro z hm hc
    have := h z hm hc
    simpa using this
  · intro z hc hlen
    unfold find_zone_id
    rw [show fzFold rec.fqdn (zones ++ [z]) ("X", none) =
        fzStep rec.fqdn (fzFold rec.fqdn zones ("X", none)) z from
      List.foldl_append ..]
    unfold fzStep
    rw [if_neg ?_]
    rintro ⟨-, hgt⟩
    rw [hlen] at hgt
    exact lt_irrefl _ hgt

/-- Witness for C10: a length-1 domain (`"c"`) that is the only substring
match yields no zone id, and appending a second zone whose domain ties the
selected length leaves the first-declared zone selected. -/
theorem find_zone_id_sentinel_spec_witness :
    find_zone_id { rtype := "A", fqdn := "a.bc", target := "t", ttl := 300 }
      [{ name := "n1", domain := "c", id := "Z9" }] = none ∧
    find_zone_id { rtype := "A", fqdn := "a.bc", target := "t", ttl := 300 }
      ([{ name := "n1", domain := "bc", id := "A1" }] ++
       [{ name := "n2", domain := "bc", id := "B2" }]) =
      find_zone_id { rtype := "A", fqdn := "a.bc", target := "t", ttl := 300 }
      [{ name := "n1", domain := "bc", id := "A1" }] :=
  ⟨(find_zone_id_sentinel_spec _ _).2.1 (by decide),
   (find_zone_id_sentinel_spec _ _).2.2
     { name := "n2", domain := "bc", id := "B2" } (by decide) (by decide)⟩
